import Mathlib

/-!
Verification of the form-JSON backfill script
(scripts/populate_form_json.py).

The script selects all form rows whose form_json column is NULL, and for
each one derives a display name from a multilingual name mapping, resolves
an optional fund title through the fixed join chain
section -> round -> fund, calls the external builder
build_form_json(form, fund_title), and assigns the result to the row in
memory.  Per-record exceptions are caught: the error counter is bumped and
the loop continues.  A single commit at the end persists all assignments;
on commit failure everything is rolled back and the process exits 1.  An
exception escaping the loop (e.g. the initial query) is caught in main,
which also exits 1.

The embedding below renders rows and join tables as lists, the multilingual
mappings as association lists, the external builder as a function parameter
returning Except (an Except.error models the builder raising), the database
session as explicit state passing, and process exit codes as a field of the
run result.  The builder is total and returns a JSON structure, so the only
per-record failure sources representable are a NULL name mapping (the
script dereferences it unconditionally, raising AttributeError) and a
builder exception; the join lookup is a pure total function here.
-/

set_option maxHeartbeats 1000000

/-- The JSON structure returned by the external builder, modelled
abstractly as a wrapper around a string payload. -/
structure FormJson where
  payload : String
deriving DecidableEq

/-- A form row: primary key, the nullable multilingual name mapping
(name_in_apply_json), the nullable section reference, and the nullable
form_json column that the script populates. -/
structure Form where
  form_id : Nat
  name_in_apply_json : Option (List (String × String))
  section_id : Option Nat
  form_json : Option FormJson
deriving DecidableEq

/-- The storage state: the form table plus the three tables of the join
chain.  sections maps section_id to round_id, rounds maps round_id to
fund_id, funds maps fund_id to the nullable multilingual title_json. -/
structure DB where
  forms : List Form
  sections : List (Nat × Nat)
  rounds : List (Nat × Nat)
  funds : List (Nat × Option (List (String × String)))
deriving DecidableEq

/-- The external builder build_form_json(form, fund_title): opaque to the
script; an Except.error models it raising an exception. -/
def Builder : Type :=
  Form → Option String → Except String FormJson

/-- The SQL join: SELECT f.title_json FROM fund f JOIN round r JOIN
section s WHERE s.section_id = sid, fetchone().  Returns none when any
link of the chain is missing (no row), and some title_json (itself
nullable) when the row exists. -/
def fundTitleQuery (db : DB) (sid : Nat) : Option (Option (List (String × String))) :=
  match db.sections.lookup sid with
  | none => none
  | some rid =>
    match db.rounds.lookup rid with
    | none => none
    | some fid => db.funds.lookup fid

/-- Lines 43-58: fund_title is None when section_id is absent; otherwise
the join is executed and fund_title is result[0].get("en") if result and
result[0] else None. -/
def resolveFundTitle (db : DB) (section_id : Option Nat) : Option String :=
  match section_id with
  | none => none
  | some sid =>
    match fundTitleQuery db sid with
    | none => none
    | some none => none
    | some (some title_json) => title_json.lookup "en"

/-- Line 39: form.name_in_apply_json.get("en", "Unnamed").  When the
mapping is NULL the attribute access raises (caught per record); otherwise
the lookup falls back to "Unnamed". -/
def deriveName (f : Form) : Except String String :=
  match f.name_in_apply_json with
  | none => Except.error "AttributeError"
  | some m => Except.ok ((m.lookup "en").getD "Unnamed")

/-- Whether name derivation succeeds for a form. -/
def nameOk (f : Form) : Bool :=
  match deriveName f with
  | Except.ok _ => true
  | Except.error _ => false

/-- The whole per-record body, lines 38-64: derive the name, resolve the
title, call the builder.  Any stage failing makes the record fail. -/
def processForm (b : Builder) (db : DB) (f : Form) : Except String FormJson :=
  match deriveName f with
  | Except.error e => Except.error e
  | Except.ok _ => b f (resolveFundTitle db f.section_id)

/-- Whether the per-record body succeeds for a form. -/
def processOk (b : Builder) (db : DB) (f : Form) : Bool :=
  match processForm b db f with
  | Except.ok _ => true
  | Except.error _ => false

/-- Result of the per-record loop: the session forms after the in-memory
assignments, the two counters, the trace of builder invocations
(form_id, fund_title), and the error-log entries. -/
structure LoopOut where
  forms : List Form
  updated_count : Nat
  error_count : Nat
  builderCalls : List (Nat × Option String)
  logs : List String
deriving DecidableEq

/-- Lines 37-74: the loop over the session's forms.  The script iterates
the prefiltered candidate list; here we walk the full form table and
process exactly the rows the query selected (form_json NULL), which is the
same traversal since the filter preserves order and the processing of one
row reads only that row and the join tables.  On success the row gets its
form_json assigned and updated_count is bumped; on a per-record exception
error_count is bumped, the failure is logged, and the row is left as it
was.  The builder is invoked only when name derivation succeeded. -/
def processLoop (b : Builder) (db : DB) : List Form → LoopOut
  | [] => ⟨[], 0, 0, [], []⟩
  | f :: rest =>
    let out := processLoop b db rest
    if f.form_json.isNone then
      match deriveName f with
      | Except.error _ =>
        ⟨f :: out.forms, out.updated_count, out.error_count + 1,
          out.builderCalls, "Failed to generate JSON for form." :: out.logs⟩
      | Except.ok _ =>
        let fund_title := resolveFundTitle db f.section_id
        match b f fund_title with
        | Except.ok j =>
          ⟨{ f with form_json := some j } :: out.forms, out.updated_count + 1,
            out.error_count, (f.form_id, fund_title) :: out.builderCalls, out.logs⟩
        | Except.error _ =>
          ⟨f :: out.forms, out.updated_count, out.error_count + 1,
            (f.form_id, fund_title) :: out.builderCalls,
            "Failed to generate JSON for form." :: out.logs⟩
    else
      ⟨f :: out.forms, out.updated_count, out.error_count, out.builderCalls, out.logs⟩

/-- What one row looks like after the loop: a selected row whose processing
succeeded carries the built JSON, every other row is unchanged. -/
def processedForm (b : Builder) (db : DB) (f : Form) : Form :=
  if f.form_json.isNone then
    match processForm b db f with
    | Except.ok j => { f with form_json := some j }
    | Except.error _ => f
  else f

/-- The candidate query, line 26: all forms where form_json IS NULL. -/
def candidates (db : DB) : List Form :=
  db.forms.filter (fun f => f.form_json.isNone)

/-- Outcome of a run: the committed storage, the two counters, the process
exit code, whether the nothing-to-do message was printed, the builder-call
trace and the error log. -/
structure RunResult where
  storage : DB
  updated_count : Nat
  error_count : Nat
  exitCode : Nat
  nothingToDo : Bool
  builderCalls : List (Nat × Option String)
  logs : List String
deriving DecidableEq

/-- populate_form_json, lines 19-88.  commitOk says whether the final
db.session.commit() succeeds; when it fails the session is rolled back
(storage keeps its pre-run value), the failure is logged and the process
exits 1 via sys.exit.  With zero candidates the function returns before
the loop and before any commit. -/
def populate_form_json (b : Builder) (commitOk : Bool) (db : DB) : RunResult :=
  let forms_to_update := candidates db
  if forms_to_update.isEmpty then
    ⟨db, 0, 0, 0, true, [], []⟩
  else
    let out := processLoop b db db.forms
    if commitOk then
      ⟨{ db with forms := out.forms }, out.updated_count, out.error_count, 0,
        false, out.builderCalls, out.logs⟩
    else
      ⟨db, out.updated_count, out.error_count, 1, false, out.builderCalls,
        out.logs ++ ["Failed to commit form JSON updates."]⟩

/-- main, lines 91-101.  queryOk says whether an exception escapes the
per-record handling (the representable case being the initial candidate
query raising); such an exception is caught in main, logged, and the
process exits 1 with no commit ever issued.  sys.exit(1) from the commit
failure path is a SystemExit, which the except Exception in main does not
intercept, so the populate_form_json result passes through unchanged.
(Lean reserves the name main for executable entry points, hence main_run.) -/
def main_run (b : Builder) (queryOk commitOk : Bool) (db : DB) : RunResult :=
  if queryOk then
    populate_form_json b commitOk db
  else
    ⟨db, 0, 0, 1, false, [], ["Form JSON population script failed."]⟩

/-! ### Characterization of the per-record loop -/

/-- The session forms after the loop are the pointwise images under
processedForm. -/
theorem processLoop_forms (b : Builder) (db : DB) (l : List Form) :
    (processLoop b db l).forms = l.map (processedForm b db) := by
  induction l with
  | nil => rfl
  | cons f rest ih =>
    cases h : f.form_json.isNone with
    | false => simp [processLoop, processedForm, h, ih]
    | true =>
      cases hn : deriveName f with
      | error e => simp [processLoop, processedForm, processForm, h, hn, ih]
      | ok nm =>
        cases hb : b f (resolveFundTitle db f.section_id) with
        | ok j => simp [processLoop, processedForm, processForm, h, hn, hb, ih]
        | error e => simp [processLoop, processedForm, processForm, h, hn, hb, ih]

/-- updated_count counts exactly the selected rows whose processing
succeeds. -/
theorem processLoop_updated (b : Builder) (db : DB) (l : List Form) :
    (processLoop b db l).updated_count
      = (l.filter (fun f => f.form_json.isNone && processOk b db f)).length := by
  induction l with
  | nil => rfl
  | cons f rest ih =>
    cases h : f.form_json.isNone with
    | false => simp [processLoop, h, ih]
    | true =>
      cases hn : deriveName f with
      | error e => simp [processLoop, processOk, processForm, h, hn, ih]
      | ok nm =>
        cases hb : b f (resolveFundTitle db f.section_id) with
        | ok j => simp [processLoop, processOk, processForm, h, hn, hb, ih]
        | error e => simp [processLoop, processOk, processForm, h, hn, hb, ih]

/-- error_count counts exactly the selected rows whose processing fails. -/
theorem processLoop_error (b : Builder) (db : DB) (l : List Form) :
    (processLoop b db l).error_count
      = (l.filter (fun f => f.form_json.isNone && !processOk b db f)).length := by
  induction l with
  | nil => rfl
  | cons f rest ih =>
    cases h : f.form_json.isNone with
    | false => simp [processLoop, h, ih]
    | true =>
      cases hn : deriveName f with
      | error e => simp [processLoop, processOk, processForm, h, hn, ih]
      | ok nm =>
        cases hb : b f (resolveFundTitle db f.section_id) with
        | ok j => simp [processLoop, processOk, processForm, h, hn, hb, ih]
        | error e => simp [processLoop, processOk, processForm, h, hn, hb, ih]

/-- Every selected row whose name derivation succeeds gives rise to a
builder call carrying the resolved fund title. -/
theorem processLoop_calls (b : Builder) (db : DB) (l : List Form) (f : Form)
    (hf : f ∈ l) (hnull : f.form_json = none) (hname : nameOk f = true) :
    (f.form_id, resolveFundTitle db f.section_id) ∈ (processLoop b db l).builderCalls := by
  induction l with
  | nil => cases hf
  | cons g rest ih =>
    rcases List.mem_cons.mp hf with hfg | hfr
    · subst hfg
      have h : f.form_json.isNone = true := by simp [hnull]
      cases hn : deriveName f with
      | error e => simp [nameOk, hn] at hname
      | ok nm =>
        cases hb : b f (resolveFundTitle db f.section_id) with
        | ok j => simp [processLoop, h, hn, hb]
        | error e => simp [processLoop, h, hn, hb]
    · have hmem := ih hfr
      cases h : g.form_json.isNone with
      | false => simpa [processLoop, h] using hmem
      | true =>
        cases hn : deriveName g with
        | error e => simpa [processLoop, h, hn] using hmem
        | ok nm =>
          cases hb : b g (resolveFundTitle db g.section_id) with
          | ok j => simp [processLoop, h, hn, hb, hmem]
          | error e => simp [processLoop, h, hn, hb, hmem]

/-- Rows that remain NULL after the loop are exactly the selected rows
whose processing failed, and they are unchanged. -/
theorem filter_isNone_map_processedForm (b : Builder) (db : DB) (l : List Form) :
    (l.map (processedForm b db)).filter (fun f => f.form_json.isNone)
      = l.filter (fun f => f.form_json.isNone && !processOk b db f) := by
  induction l with
  | nil => rfl
  | cons f rest ih =>
    cases h : f.form_json.isNone with
    | false => simp [processedForm, h, ih]
    | true =>
      cases hp : processForm b db f with
      | ok j => simp [processedForm, processOk, h, hp, ih]
      | error e => simp [processedForm, processOk, h, hp, ih]

/-! ### Facts about a whole run -/

/-- Counting a list by a predicate and by its negation partitions it. -/
theorem length_filter_add_length_filter_not {α : Type} (p : α → Bool) (l : List α) :
    (l.filter p).length + (l.filter (fun a => !p a)).length = l.length := by
  induction l with
  | nil => rfl
  | cons a l ih =>
    cases h : p a <;> simp [List.filter_cons, h, ← ih] <;> omega

/-- A run never touches the three join tables. -/
theorem populate_tables (b : Builder) (commitOk : Bool) (db : DB) :
    (populate_form_json b commitOk db).storage.sections = db.sections ∧
    (populate_form_json b commitOk db).storage.rounds = db.rounds ∧
    (populate_form_json b commitOk db).storage.funds = db.funds := by
  cases h : (candidates db).isEmpty with
  | true => simp [populate_form_json, h]
  | false => cases commitOk <;> simp [populate_form_json, h]

/-- The per-record body reads only the join tables of the database. -/
theorem processForm_tables (b : Builder) (db db2 : DB) (f : Form)
    (hs : db2.sections = db.sections) (hr : db2.rounds = db.rounds)
    (hf : db2.funds = db.funds) :
    processForm b db2 f = processForm b db f := by
  unfold processForm resolveFundTitle fundTitleQuery
  rw [hs, hr, hf]

/-- Filtering the candidates by processing failure is filtering the form
table by NULL-and-failure. -/
theorem candidates_filter_not_ok (b : Builder) (db : DB) :
    (candidates db).filter (fun f => !processOk b db f)
      = db.forms.filter (fun f => f.form_json.isNone && !processOk b db f) := by
  unfold candidates
  rw [List.filter_filter]
  exact List.filter_congr (fun f _ => Bool.and_comm _ _)

/-- Filtering the candidates by processing success is filtering the form
table by NULL-and-success. -/
theorem candidates_filter_ok (b : Builder) (db : DB) :
    (candidates db).filter (fun f => processOk b db f)
      = db.forms.filter (fun f => f.form_json.isNone && processOk b db f) := by
  unfold candidates
  rw [List.filter_filter]
  exact List.filter_congr (fun f _ => Bool.and_comm _ _)

/-- With no candidate, the loop image is the identity on the form table. -/
theorem map_processedForm_of_no_candidates (b : Builder) (db : DB)
    (h : candidates db = []) : db.forms.map (processedForm b db) = db.forms := by
  have h2 : ∀ f ∈ db.forms, f.form_json.isNone = false := by
    intro f hf
    have h3 := List.filter_eq_nil_iff.mp h f hf
    cases hfj : f.form_json.isNone with
    | false => rfl
    | true => exact absurd hfj h3
  have h4 : ∀ f ∈ db.forms, processedForm b db f = id f := by
    intro f hf
    simp [processedForm, h2 f hf]
  rw [List.map_congr_left h4, List.map_id]

/-- C1: over the N candidate records (form_json NULL), a run in which
exactly K records fail per-record processing still processes the whole
batch: updated_count = N - K, error_count = K, storage after the commit is
the pointwise processedForm image of the form table (so each failing
record is unchanged, its form_json still NULL), and the candidates still
NULL after the commit are exactly the K failing ones. -/
theorem partial_failure_isolation (b : Builder) (db : DB) :
    (populate_form_json b true db).updated_count
        = (candidates db).length
            - ((candidates db).filter (fun f => !processOk b db f)).length ∧
    (populate_form_json b true db).error_count
        = ((candidates db).filter (fun f => !processOk b db f)).length ∧
    (populate_form_json b true db).storage.forms = db.forms.map (processedForm b db) ∧
    candidates (populate_form_json b true db).storage
        = (candidates db).filter (fun f => !processOk b db f) := by
  cases hE : (candidates db).isEmpty with
  | true =>
    have hc : candidates db = [] := List.isEmpty_iff.mp hE
    have hmap := map_processedForm_of_no_candidates b db hc
    have hrun : populate_form_json b true db = ⟨db, 0, 0, 0, true, [], []⟩ := by
      simp [populate_form_json, hE]
    rw [hrun]
    refine ⟨by simp [hc], by simp [hc], hmap.symm, ?_⟩
    show candidates db = _
    rw [hc]
    rfl
  | false =>
    have hrun : populate_form_json b true db
        = ⟨{ db with forms := (processLoop b db db.forms).forms },
            (processLoop b db db.forms).updated_count,
            (processLoop b db db.forms).error_count, 0, false,
            (processLoop b db db.forms).builderCalls,
            (processLoop b db db.forms).logs⟩ := by
      simp [populate_form_json, hE]
    have hpart := length_filter_add_length_filter_not
      (fun f => processOk b db f) (candidates db)
    rw [hrun]
    refine ⟨?_, ?_, ?_, ?_⟩
    · show (processLoop b db db.forms).updated_count = _
      rw [processLoop_updated, ← candidates_filter_ok]
      omega
    · show (processLoop b db db.forms).error_count = _
      rw [processLoop_error, ← candidates_filter_not_ok]
    · exact processLoop_forms b db db.forms
    · show (processLoop b db db.forms).forms.filter (fun f => f.form_json.isNone) = _
      rw [processLoop_forms, filter_isNone_map_processedForm, ← candidates_filter_not_ok]

/-- A nonempty list is not isEmpty. -/
theorem isEmpty_false_of_ne_nil {α : Type} {l : List α} (h : l ≠ []) :
    l.isEmpty = false := by
  cases hE : l.isEmpty with
  | true => exact absurd (List.isEmpty_iff.mp hE) h
  | false => rfl

/-- With no candidate, a run is the early-return result: nothing moves. -/
theorem populate_of_isEmpty (b : Builder) (commitOk : Bool) (db : DB)
    (hE : (candidates db).isEmpty = true) :
    populate_form_json b commitOk db = ⟨db, 0, 0, 0, true, [], []⟩ := by
  simp [populate_form_json, hE]

/-- With candidates present and the commit succeeding, the committed
storage is the processedForm image of the form table. -/
theorem populate_commit_storage (b : Builder) (db : DB)
    (hE : (candidates db).isEmpty = false) :
    (populate_form_json b true db).storage
      = { db with forms := db.forms.map (processedForm b db) } := by
  simp [populate_form_json, hE, processLoop_forms]

/-- With candidates present, error_count is the number of selected rows
whose processing fails. -/
theorem populate_commit_error (b : Builder) (db : DB)
    (hE : (candidates db).isEmpty = false) :
    (populate_form_json b true db).error_count
      = (db.forms.filter (fun f => f.form_json.isNone && !processOk b db f)).length := by
  simp [populate_form_json, hE, processLoop_error]

/-- The nothing-to-do message is printed exactly when the candidate query
comes back empty. -/
theorem populate_nothingToDo (b : Builder) (commitOk : Bool) (db : DB) :
    (populate_form_json b commitOk db).nothingToDo = (candidates db).isEmpty := by
  cases hE : (candidates db).isEmpty with
  | true => simp [populate_form_json, hE]
  | false => cases commitOk <;> simp [populate_form_json, hE]

/-- C2: on a batch-fatal error (the final commit failing with candidates
present, or an exception escaping the per-record handling, e.g. the
initial query raising) the storage keeps its pre-run value for every
record, the failure is logged, and the process exits nonzero. -/
theorem atomicity_on_batch_fatal (b : Builder) (db : DB) (queryOk commitOk : Bool)
    (h : queryOk = false ∨ (commitOk = false ∧ candidates db ≠ [])) :
    (main_run b queryOk commitOk db).storage = db ∧
    (main_run b queryOk commitOk db).exitCode = 1 ∧
    ("Failed to commit form JSON updates." ∈ (main_run b queryOk commitOk db).logs ∨
      "Form JSON population script failed." ∈ (main_run b queryOk commitOk db).logs) := by
  rcases h with h | ⟨hc, hne⟩
  · subst h
    exact ⟨rfl, rfl, Or.inr (by simp [main_run])⟩
  · subst hc
    have hE : (candidates db).isEmpty = false := isEmpty_false_of_ne_nil hne
    cases queryOk with
    | true => refine ⟨?_, ?_, Or.inl ?_⟩ <;> simp [main_run, populate_form_json, hE]
    | false => exact ⟨rfl, rfl, Or.inr (by simp [main_run])⟩

/-- C5: the process exits 0 exactly on the normal completions (query
succeeded and either there was nothing to do or the final commit
succeeded), and nonzero exactly when an exception escapes the run or the
final commit fails. -/
theorem exit_code_contract (b : Builder) (db : DB) (queryOk commitOk : Bool) :
    ((main_run b queryOk commitOk db).exitCode = 0
      ↔ (queryOk = true ∧ (candidates db = [] ∨ commitOk = true))) ∧
    ((main_run b queryOk commitOk db).exitCode ≠ 0
      ↔ (queryOk = false ∨ (candidates db ≠ [] ∧ commitOk = false))) := by
  cases hE : (candidates db).isEmpty with
  | true =>
    have hc : candidates db = [] := List.isEmpty_iff.mp hE
    cases queryOk <;> cases commitOk <;>
      simp [main_run, populate_form_json, hE, hc]
  | false =>
    have hc : candidates db ≠ [] := by
      intro hcc
      rw [hcc] at hE
      exact absurd hE (by simp)
    cases queryOk <;> cases commitOk <;>
      simp [main_run, populate_form_json, hE, hc]

/-- C7: with zero candidates the run reports nothing to do, zero updates
and zero errors, leaves storage untouched, performs no builder call and
logs nothing, and exits 0 (the commit outcome is never consulted). -/
theorem empty_input (b : Builder) (commitOk : Bool) (db : DB)
    (h : candidates db = []) :
    populate_form_json b commitOk db
      = ⟨db, 0, 0, 0, true, [], []⟩ := by
  have hE : (candidates db).isEmpty = true := by rw [h]; rfl
  simp [populate_form_json, hE]

/-! ### Concrete scenarios -/

/-- A builder that always succeeds, packing the received title into the
payload. -/
def okBuilder : Builder :=
  fun _f t => Except.ok ⟨t.getD "no title"⟩

/-- A candidate whose name mapping is NULL, so its per-record processing
deterministically raises before the builder is reached. -/
def badNameForm : Form :=
  ⟨1, none, none, none⟩

/-- A single-candidate storage on which every run errs on the one record. -/
def dbBad : DB :=
  ⟨[badNameForm], [], [], []⟩

/-- A storage with no candidate: its only form is already populated. -/
def dbFull : DB :=
  ⟨[⟨1, some [("en", "A")], none, some ⟨"done"⟩⟩], [], [], []⟩

/-- A candidate whose section resolves through the full join chain to a
fund titled Grant X. -/
def formA : Form :=
  ⟨1, some [("en", "Apply form")], some 10, none⟩

/-- A candidate with no section reference. -/
def formB : Form :=
  ⟨2, some [], none, none⟩

/-- A candidate whose section is orphaned: no row of the join chain. -/
def formC : Form :=
  ⟨3, some [("en", "C form")], some 99, none⟩

/-- Storage exercising the join chain: formA resolves to Grant X, formB
has no section, formC is orphaned. -/
def dbJoin : DB :=
  ⟨[formA, formB, formC], [(10, 20)], [(20, 30)], [(30, some [("en", "Grant X")])]⟩

/-- Storage with one succeeding and one failing candidate. -/
def dbMix : DB :=
  ⟨[⟨1, some [("en", "Good")], none, none⟩, badNameForm], [], [], []⟩

/-- Witness for C2 at a concrete input: one candidate, query fine, commit
failing. -/
theorem atomicity_on_batch_fatal_witness :
    (main_run okBuilder true false dbBad).storage = dbBad ∧
    (main_run okBuilder true false dbBad).exitCode = 1 ∧
    ("Failed to commit form JSON updates." ∈ (main_run okBuilder true false dbBad).logs ∨
      "Form JSON population script failed." ∈ (main_run okBuilder true false dbBad).logs) :=
  atomicity_on_batch_fatal okBuilder dbBad true false (Or.inr ⟨rfl, by decide⟩)

/-- Witness for C7 at a concrete input: no candidate, and the commit
outcome flag false shows no commit is consulted. -/
theorem empty_input_witness :
    populate_form_json okBuilder false dbFull
      = ⟨dbFull, 0, 0, 0, true, [], []⟩ :=
  empty_input okBuilder false dbFull (by decide)

/-- Everything of a row except the populated column. -/
def frameOf (f : Form) : Nat × Option (List (String × String)) × Option Nat :=
  (f.form_id, f.name_in_apply_json, f.section_id)

/-- The loop rewrites at most the form_json column of a row. -/
theorem frameOf_processedForm (b : Builder) (db : DB) (f : Form) :
    frameOf (processedForm b db f) = frameOf f := by
  unfold processedForm
  cases h : f.form_json.isNone with
  | false => simp [h]
  | true =>
    cases hp : processForm b db f with
    | ok j => simp [h, hp, frameOf]
    | error e => simp [h, hp]

/-- C8: a run only ever mutates the form_json column: the join tables are
untouched and every form row keeps its identity, name mapping and section
reference, with no row created or deleted. -/
theorem frame_property (b : Builder) (db : DB) (queryOk commitOk : Bool) :
    (main_run b queryOk commitOk db).storage.forms.map frameOf = db.forms.map frameOf ∧
    (main_run b queryOk commitOk db).storage.sections = db.sections ∧
    (main_run b queryOk commitOk db).storage.rounds = db.rounds ∧
    (main_run b queryOk commitOk db).storage.funds = db.funds := by
  cases queryOk with
  | false => exact ⟨rfl, rfl, rfl, rfl⟩
  | true =>
    have ht := populate_tables b commitOk db
    refine ⟨?_, ht.1, ht.2.1, ht.2.2⟩
    show (populate_form_json b commitOk db).storage.forms.map frameOf = _
    cases hE : (candidates db).isEmpty with
    | true => simp [populate_form_json, hE]
    | false =>
      cases commitOk with
      | false => simp [populate_form_json, hE]
      | true =>
        rw [populate_commit_storage b db hE]
        show (db.forms.map (processedForm b db)).map frameOf = _
        rw [List.map_map]
        exact List.map_congr_left (fun f _ => frameOf_processedForm b db f)

/-- C9: whenever the run reaches the commit step, the two counters
partition the candidates: their sum is the candidate count and each
counter counts exactly the successes resp. failures of per-record
processing. -/
theorem counter_invariant (b : Builder) (commitOk : Bool) (db : DB)
    (h : candidates db ≠ []) :
    (populate_form_json b commitOk db).updated_count
        + (populate_form_json b commitOk db).error_count
      = (candidates db).length ∧
    (populate_form_json b commitOk db).updated_count
      = ((candidates db).filter (fun f => processOk b db f)).length ∧
    (populate_form_json b commitOk db).error_count
      = ((candidates db).filter (fun f => !processOk b db f)).length := by
  have hE : (candidates db).isEmpty = false := isEmpty_false_of_ne_nil h
  have hu : (populate_form_json b commitOk db).updated_count
      = ((candidates db).filter (fun f => processOk b db f)).length := by
    cases commitOk <;>
      simp [populate_form_json, hE, processLoop_updated, ← candidates_filter_ok]
  have he : (populate_form_json b commitOk db).error_count
      = ((candidates db).filter (fun f => !processOk b db f)).length := by
    cases commitOk <;>
      simp [populate_form_json, hE, processLoop_error, ← candidates_filter_not_ok]
  have hpart := length_filter_add_length_filter_not
    (fun f => processOk b db f) (candidates db)
  exact ⟨by omega, hu, he⟩

/-- Witness for C9 at a concrete input: two candidates, one succeeding and
one failing, with a failing commit (the counters are independent of the
commit outcome). -/
theorem counter_invariant_witness :
    (populate_form_json okBuilder false dbMix).updated_count
        + (populate_form_json okBuilder false dbMix).error_count
      = (candidates dbMix).length ∧
    (populate_form_json okBuilder false dbMix).updated_count
      = ((candidates dbMix).filter (fun f => processOk okBuilder dbMix f)).length ∧
    (populate_form_json okBuilder false dbMix).error_count
      = ((candidates dbMix).filter (fun f => !processOk okBuilder dbMix f)).length :=
  counter_invariant okBuilder false dbMix (by decide)

/-- C10: when every candidate of a nonempty batch fails per-record
processing the run still reaches the commit: zero updates, an error per
candidate, storage unchanged (every candidate still NULL), exit 0 when the
commit succeeds, and no nothing-to-do shortcut. -/
theorem all_errors_edge (b : Builder) (db : DB)
    (hne : candidates db ≠ [])
    (hall : ∀ f ∈ candidates db, processOk b db f = false) :
    (populate_form_json b true db).updated_count = 0 ∧
    (populate_form_json b true db).error_count = (candidates db).length ∧
    (populate_form_json b true db).storage = db ∧
    (populate_form_json b true db).exitCode = 0 ∧
    (populate_form_json b true db).nothingToDo = false := by
  have hE : (candidates db).isEmpty = false := isEmpty_false_of_ne_nil hne
  have hfilterOk : (candidates db).filter (fun f => processOk b db f) = [] :=
    List.filter_eq_nil_iff.mpr (fun f hf => by simp [hall f hf])
  have hfilterNot : (candidates db).filter (fun f => !processOk b db f) = candidates db :=
    List.filter_eq_self.mpr (fun f hf => by simp [hall f hf])
  refine ⟨?_, ?_, ?_, ?_, ?_⟩
  · simp [populate_form_json, hE, processLoop_updated, ← candidates_filter_ok, hfilterOk]
  · simp [populate_form_json, hE, processLoop_error, ← candidates_filter_not_ok, hfilterNot]
  · rw [populate_commit_storage b db hE]
    have h4 : ∀ f ∈ db.forms, processedForm b db f = id f := by
      intro f hf
      cases hfj : f.form_json.isNone with
      | false => simp [processedForm, hfj]
      | true =>
        have hmem : f ∈ candidates db := List.mem_filter.mpr ⟨hf, hfj⟩
        have hok := hall f hmem
        cases hp : processForm b db f with
        | ok j => simp [processOk, hp] at hok
        | error e => simp [processedForm, hfj, hp]
    rw [List.map_congr_left h4, List.map_id]
  · simp [populate_form_json, hE]
  · simp [populate_form_json, hE]

/-- Witness for C10 at a concrete input: the single candidate of dbBad
deterministically fails. -/
theorem all_errors_edge_witness :
    (populate_form_json okBuilder true dbBad).updated_count = 0 ∧
    (populate_form_json okBuilder true dbBad).error_count = (candidates dbBad).length ∧
    (populate_form_json okBuilder true dbBad).storage = dbBad ∧
    (populate_form_json okBuilder true dbBad).exitCode = 0 ∧
    (populate_form_json okBuilder true dbBad).nothingToDo = false :=
  all_errors_edge okBuilder dbBad (by decide) (by decide)

/-- C4: every candidate whose name derivation succeeds leads to a builder
call whose title argument is the resolved fund title; that title is the
"en" entry of the joined fund when the whole chain resolves, and null when
the record has no section reference. -/
theorem title_resolution (b : Builder) (db : DB) (f : Form)
    (hf : f ∈ db.forms) (hnull : f.form_json = none) (hname : nameOk f = true)
    (S rid fid : Nat) (title_json : List (String × String)) (title : String) :
    (f.form_id, resolveFundTitle db f.section_id)
        ∈ (populate_form_json b true db).builderCalls ∧
    (f.section_id = none → resolveFundTitle db f.section_id = none) ∧
    (f.section_id = some S → db.sections.lookup S = some rid →
      db.rounds.lookup rid = some fid →
      db.funds.lookup fid = some (some title_json) →
      title_json.lookup "en" = some title →
      resolveFundTitle db f.section_id = some title) := by
  have hcand : f ∈ candidates db := List.mem_filter.mpr ⟨hf, by simp [hnull]⟩
  have hE : (candidates db).isEmpty = false :=
    isEmpty_false_of_ne_nil (List.ne_nil_of_mem hcand)
  refine ⟨?_, ?_, ?_⟩
  · have hcalls : (populate_form_json b true db).builderCalls
        = (processLoop b db db.forms).builderCalls := by
      simp [populate_form_json, hE]
    rw [hcalls]
    exact processLoop_calls b db db.forms f hf hnull hname
  · intro hs
    simp [resolveFundTitle, hs]
  · intro hs h1 h2 h3 h4
    simp [resolveFundTitle, fundTitleQuery, hs, h1, h2, h3, h4]

/-- Witness for C4 at concrete inputs: the fully-resolving record receives
Grant X, the section-less record receives null. -/
theorem title_resolution_witness :
    ((formA.form_id, resolveFundTitle dbJoin formA.section_id)
        ∈ (populate_form_json okBuilder true dbJoin).builderCalls ∧
      resolveFundTitle dbJoin formA.section_id = some "Grant X") ∧
    ((formB.form_id, resolveFundTitle dbJoin formB.section_id)
        ∈ (populate_form_json okBuilder true dbJoin).builderCalls ∧
      resolveFundTitle dbJoin formB.section_id = none) := by
  have hA := title_resolution okBuilder dbJoin formA (by decide) rfl (by decide)
    10 20 30 [("en", "Grant X")] "Grant X"
  have hB := title_resolution okBuilder dbJoin formB (by decide) rfl (by decide)
    0 0 0 [] "x"
  exact ⟨⟨hA.1, hA.2.2 rfl rfl rfl rfl rfl⟩, ⟨hB.1, hB.2.1 rfl⟩⟩

/-- C6: a candidate whose section does not resolve through the join chain,
or resolves to a fund with a NULL title mapping, is processed with a null
title: the builder is invoked with none and, when it succeeds, the record
counts as a success, not as an error. -/
theorem missing_join_tolerance (b : Builder) (db : DB) (f : Form) (S : Nat)
    (hf : f ∈ db.forms) (hnull : f.form_json = none) (hsec : f.section_id = some S)
    (hmiss : fundTitleQuery db S = none ∨ fundTitleQuery db S = some none)
    (hname : nameOk f = true) (hb : ∃ j, b f none = Except.ok j) :
    resolveFundTitle db f.section_id = none ∧
    (f.form_id, (none : Option String))
        ∈ (populate_form_json b true db).builderCalls ∧
    processOk b db f = true := by
  have hres : resolveFundTitle db f.section_id = none := by
    rcases hmiss with h | h <;> simp [resolveFundTitle, hsec, h]
  have hcand : f ∈ candidates db := List.mem_filter.mpr ⟨hf, by simp [hnull]⟩
  have hE : (candidates db).isEmpty = false :=
    isEmpty_false_of_ne_nil (List.ne_nil_of_mem hcand)
  refine ⟨hres, ?_, ?_⟩
  · have hcalls : (populate_form_json b true db).builderCalls
        = (processLoop b db db.forms).builderCalls := by
      simp [populate_form_json, hE]
    rw [hcalls, ← hres]
    exact processLoop_calls b db db.forms f hf hnull hname
  · rcases hb with ⟨j, hj⟩
    cases hn : deriveName f with
    | error e => simp [nameOk, hn] at hname
    | ok nm => simp [processOk, processForm, hn, hres, hj]

/-- Witness for C6 at a concrete input: the orphaned-section record of
dbJoin is processed with a null title and succeeds. -/
theorem missing_join_tolerance_witness :
    resolveFundTitle dbJoin formC.section_id = none ∧
    (formC.form_id, (none : Option String))
        ∈ (populate_form_json okBuilder true dbJoin).builderCalls ∧
    processOk okBuilder dbJoin formC = true :=
  missing_join_tolerance okBuilder dbJoin formC 99 (by decide) rfl rfl
    (Or.inl rfl) (by decide) ⟨⟨"no title"⟩, rfl⟩

/-- C3 as stated fails: with a deterministic builder, a first run whose
only candidate errs leaves that record NULL, so the second run selects it
again instead of finding zero candidates, and does not report nothing to
do — even though storage is indeed unchanged by the second run. -/
theorem idempotence_counterexample :
    candidates (populate_form_json okBuilder true dbBad).storage ≠ [] ∧
    (populate_form_json okBuilder true
        ((populate_form_json okBuilder true dbBad).storage)).nothingToDo = false ∧
    (populate_form_json okBuilder true
        ((populate_form_json okBuilder true dbBad).storage)).storage
      = (populate_form_json okBuilder true dbBad).storage := by
  decide

/-- C3 amended: with the builder a (deterministic) function and both
commits succeeding, a second run leaves storage exactly as the first run
left it; the second run selects zero candidates — and reports nothing to
do — precisely when the first run recorded zero per-record errors. -/
theorem idempotence_amended (b : Builder) (db : DB) :
    (populate_form_json b true ((populate_form_json b true db).storage)).storage
      = (populate_form_json b true db).storage ∧
    (candidates (populate_form_json b true db).storage = []
      ↔ (populate_form_json b true db).error_count = 0) ∧
    ((populate_form_json b true ((populate_form_json b true db).storage)).nothingToDo = true
      ↔ (populate_form_json b true db).error_count = 0) := by
  cases hE : (candidates db).isEmpty with
  | true =>
    have hc : candidates db = [] := List.isEmpty_iff.mp hE
    simp [populate_form_json, hE, hc]
  | false =>
    have hst := populate_commit_storage b db hE
    have herr := populate_commit_error b db hE
    have hcand1 : candidates (populate_form_json b true db).storage
        = db.forms.filter (fun f => f.form_json.isNone && !processOk b db f) := by
      rw [hst]
      show (db.forms.map (processedForm b db)).filter (fun f => f.form_json.isNone) = _
      exact filter_isNone_map_processedForm b db db.forms
    have hiff2 : candidates (populate_form_json b true db).storage = []
        ↔ (populate_form_json b true db).error_count = 0 := by
      rw [hcand1, herr]
      exact ⟨fun h => by rw [h]; rfl, fun h => List.length_eq_zero.mp h⟩
    have hpt : ∀ g ∈ db.forms.map (processedForm b db),
        processedForm b { db with forms := db.forms.map (processedForm b db) } g = id g := by
      intro g hg
      rcases List.mem_map.mp hg with ⟨f, hfmem, hfg⟩
      have htab : processForm b { db with forms := db.forms.map (processedForm b db) } f
          = processForm b db f := processForm_tables b db _ f rfl rfl rfl
      cases hfj : f.form_json.isNone with
      | false =>
        have hg2 : g = f := by rw [← hfg]; simp [processedForm, hfj]
        rw [hg2]
        simp [processedForm, hfj]
      | true =>
        cases hp : processForm b db f with
        | ok j =>
          have hg2 : g = { f with form_json := some j } := by
            rw [← hfg]; simp [processedForm, hfj, hp]
          rw [hg2]
          simp [processedForm]
        | error e =>
          have hg2 : g = f := by rw [← hfg]; simp [processedForm, hfj, hp]
          rw [hg2]
          simp [processedForm, hfj, htab, hp]
    have hmm : (db.forms.map (processedForm b db)).map
        (processedForm b { db with forms := db.forms.map (processedForm b db) })
        = db.forms.map (processedForm b db) := by
      rw [List.map_congr_left hpt, List.map_id]
    have hstor2 : (populate_form_json b true ((populate_form_json b true db).storage)).storage
        = (populate_form_json b true db).storage := by
      cases hE2 : (candidates (populate_form_json b true db).storage).isEmpty with
      | true => rw [populate_of_isEmpty b true _ hE2]
      | false =>
        have hforms2 : ((populate_form_json b true db).storage).forms.map
            (processedForm b ((populate_form_json b true db).storage))
            = ((populate_form_json b true db).storage).forms := by
          rw [hst]
          exact hmm
        rw [populate_commit_storage b ((populate_form_json b true db).storage) hE2,
          hforms2]
    refine ⟨hstor2, hiff2, ?_⟩
    rw [populate_nothingToDo]
    constructor
    · intro h
      exact hiff2.mp (List.isEmpty_iff.mp h)
    · intro h
      have hnil := hiff2.mpr h
      rw [hnil]
      rfl
